import Mathlib

/-!
Verification of the deduplicating, resumable state-tracking engine of the
`telegram-backup` repository.  The Python sources are shallowly embedded as
executable Lean definitions: dictionaries and SQLite tables become
association lists kept in insertion order (Python dicts preserve insertion
order; SQLite upserts keep the row position, fresh inserts append), machine
integers become `Nat`/`Int`, file contents become `List Nat` (byte lists),
and the filesystem is passed explicitly as a function or a list of entries.
Timestamps, logging and progress reporting are not modelled.
-/

namespace TelegramBackup

/-! ## Association-list primitives

Insertion-ordered key/value maps, the common representation of Python
dicts and of SQLite tables with a UNIQUE key in this embedding. -/

/-- First value bound to key `k`, scanning left to right (Python `dict.get`,
SQL `SELECT ... WHERE key = ?`). -/
def lookupKV {κ β : Type} [DecidableEq κ] (k : κ) : List (κ × β) → Option β
  | [] => none
  | (k', v) :: rest => if k' = k then some v else lookupKV k rest

/-- Replace the value at key `k` in place, or append the new binding at the
end (Python `d[k] = v`; SQL `INSERT ... ON CONFLICT DO UPDATE`). -/
def upsertKV {κ β : Type} [DecidableEq κ] (k : κ) (v : β) : List (κ × β) → List (κ × β)
  | [] => [(k, v)]
  | (k', v') :: rest => if k' = k then (k', v) :: rest else (k', v') :: upsertKV k v rest

/-- Insert only when the key is absent (SQL `INSERT ... ON CONFLICT DO
NOTHING`, or a guarded Python dict write). -/
def insertIfAbsent {κ β : Type} [DecidableEq κ] (k : κ) (v : β) (l : List (κ × β)) :
    List (κ × β) :=
  match lookupKV k l with
  | some _ => l
  | none => l ++ [(k, v)]

theorem map_eq_self_of_eq_id {α : Type} (f : α → α) :
    ∀ l : List α, (∀ a ∈ l, f a = a) → l.map f = l
  | [], _ => rfl
  | a :: l, h => by
    rw [List.map_cons, h a (List.mem_cons_self a l),
      map_eq_self_of_eq_id f l (fun b hb => h b (List.mem_cons_of_mem a hb))]

theorem lookupKV_upsertKV_self {κ β : Type} [DecidableEq κ] (k : κ) (v : β)
    (l : List (κ × β)) : lookupKV k (upsertKV k v l) = some v := by
  induction l with
  | nil => simp [lookupKV, upsertKV]
  | cons hd tl ih =>
    obtain ⟨k', v'⟩ := hd
    by_cases h : k' = k
    · simp [lookupKV, upsertKV, h]
    · simp [lookupKV, upsertKV, h, ih]

theorem lookupKV_upsertKV_ne {κ β : Type} [DecidableEq κ] {k k' : κ} (v : β)
    (l : List (κ × β)) (h : k' ≠ k) :
    lookupKV k (upsertKV k' v l) = lookupKV k l := by
  induction l with
  | nil => simp [lookupKV, upsertKV, h]
  | cons hd tl ih =>
    obtain ⟨k'', v''⟩ := hd
    by_cases h' : k'' = k'
    · subst h'
      simp [lookupKV, upsertKV, h]
    · have hne : k ≠ k' := fun hh => h hh.symm
      by_cases h'' : k'' = k <;> simp [lookupKV, upsertKV, h', h'', hne, ih]

theorem lookupKV_append_right {κ β : Type} [DecidableEq κ] (k : κ)
    (l l' : List (κ × β)) (h : lookupKV k l = none) :
    lookupKV k (l ++ l') = lookupKV k l' := by
  induction l with
  | nil => simp
  | cons hd tl ih =>
    obtain ⟨k', v'⟩ := hd
    by_cases hk : k' = k
    · simp [lookupKV, hk] at h
    · simp [lookupKV, hk] at h ⊢
      exact ih h

theorem lookupKV_insertIfAbsent_absent {κ β : Type} [DecidableEq κ] (k : κ) (v : β)
    (l : List (κ × β)) (h : lookupKV k l = none) :
    lookupKV k (insertIfAbsent k v l) = some v := by
  unfold insertIfAbsent
  rw [h]
  rw [lookupKV_append_right k l [(k, v)] h]
  simp [lookupKV]

theorem insertIfAbsent_present {κ β : Type} [DecidableEq κ] (k : κ) (v : β)
    (l : List (κ × β)) (h : (lookupKV k l).isSome) :
    insertIfAbsent k v l = l := by
  unfold insertIfAbsent
  cases hl : lookupKV k l with
  | none => rw [hl] at h; simp at h
  | some w => rfl

/-! ## DedupIndex — global content-fingerprint table

Embeds `DatabaseManager.register_file_hash` / `find_duplicate_by_hash`
(src/state_db.py) and `GlobalStateManager.register_file` / `find_duplicate`
(src/state_manager.py). -/

/-- `hash_key = f"{file_size}:{sample_hash}"` (src/state_db.py line 363,
src/state_manager.py line 781). -/
def hashKey (fileSize : Nat) (sampleHash : String) : String :=
  toString fileSize ++ ":" ++ sampleHash

/-- One row of the SQLite `file_hashes` table (timestamps omitted; the
path and foreign keys are nullable). -/
structure FileHashEntry where
  file_size : Nat
  sample_hash : String
  first_occurrence_path : Option String
  first_message_id : Option Nat
  first_chat_id : Option Nat
  deriving Repr, DecidableEq

/-- The `file_hashes` table keyed by `hash_key` (PRIMARY KEY). -/
abbrev FileHashTable := List (String × FileHashEntry)

/-- `DatabaseManager.register_file_hash` (src/state_db.py lines 356-375):
check for the key, return unchanged if present, otherwise insert. -/
def registerFileHash (fileSize : Nat) (sampleHash : String) (filePath : Option String)
    (messageId chatId : Option Nat) (tbl : FileHashTable) : FileHashTable :=
  insertIfAbsent (hashKey fileSize sampleHash)
    ⟨fileSize, sampleHash, filePath, messageId, chatId⟩ tbl

/-- `DatabaseManager.find_duplicate_by_hash` (src/state_db.py lines
377-393): a row with a NULL path yields `None` just like a missing row. -/
def findDuplicateByHash (fileSize : Nat) (sampleHash : String)
    (tbl : FileHashTable) : Option String :=
  (lookupKV (hashKey fileSize sampleHash) tbl).bind (·.first_occurrence_path)

/-- The JSON global state's `hash_index` dict: key string → first path
(`null` possible when registration was called without a path). -/
abbrev GlobalHashIndex := List (String × Option String)

/-- `GlobalStateManager.register_file`, JSON branch (src/state_manager.py
lines 764-790): store only if the key is not already present. -/
def globalRegisterFile (fileSize : Nat) (sampleHash : String) (filePath : Option String)
    (idx : GlobalHashIndex) : GlobalHashIndex :=
  insertIfAbsent (hashKey fileSize sampleHash) filePath idx

/-- `GlobalStateManager.find_duplicate`, JSON branch (src/state_manager.py
lines 792-823): return the stored path if it still exists on disk; if the
stored path has disappeared, lazily drop the entry and report a miss (a
stored `null` is falsy, so it reports a miss without deleting).
`fsExists` stands for `os.path.exists`. -/
def globalFindDuplicate (fsExists : String → Bool) (fileSize : Nat)
    (sampleHash : String) (idx : GlobalHashIndex) :
    Option String × GlobalHashIndex :=
  match lookupKV (hashKey fileSize sampleHash) idx with
  | none => (none, idx)
  | some none => (none, idx)
  | some (some p) =>
      if fsExists p then (some p, idx)
      else (none, idx.filter (fun kv => kv.1 ≠ hashKey fileSize sampleHash))

/-! ## ResumeValidator

Embeds `StateManager.validate_downloaded_file` (src/state_manager.py lines
174-219).  The filesystem is a partial map from path to size
(`os.path.exists` + `os.path.getsize`); the tracked record contributes its
recorded path and declared size.  The Python tolerance `expected_size * 0.01`
is a float; it is modelled exactly as the rational `expected_size / 100`,
i.e. `size_diff > tolerance` becomes `100 * size_diff > expected_size`. -/

/-- `abs(actual_size - expected_size)` on natural numbers. -/
def sizeDiff (actual expected : Nat) : Nat :=
  max actual expected - min actual expected

/-- `StateManager.validate_downloaded_file`, record-level core: `false` when
no path is recorded, the path does not exist, or the file is empty;
otherwise, with a declared size `> 0`, invalid exactly when the difference
exceeds both the 1% tolerance and 1024 bytes. -/
def validateDownloadedFile (fs : String → Option Nat) (filePath : Option String)
    (expectedSize : Nat) : Bool :=
  match filePath with
  | none => false
  | some p =>
    match fs p with
    | none => false
    | some actualSize =>
      if actualSize = 0 then false
      else if 0 < expectedSize then
        let diff := sizeDiff actualSize expectedSize
        !(decide (100 * diff > expectedSize) && decide (diff > 1024))
      else true

/-! ## String and path utilities

Python compares strings by Unicode code points and tuples/lists
lexicographically; both comparators are given here as executable boolean
functions on the underlying character lists. -/

/-- Code-point comparison of characters. -/
def charLe (a b : Char) : Bool := a.toNat ≤ b.toNat

/-- Lexicographic order on lists induced by `le` on elements (Python's
sequence comparison: shorter prefix sorts first). -/
def listLe {α : Type} [DecidableEq α] (le : α → α → Bool) : List α → List α → Bool
  | [], _ => true
  | _ :: _, [] => false
  | a :: as, b :: bs => if a = b then listLe le as bs else le a b

/-- Python `<=` on strings. -/
def strLe (a b : String) : Bool := listLe charLe a.data b.data

/-- Python `<=` on tuples of strings (group sort key `tuple(g)`). -/
def groupLe (a b : List String) : Bool := listLe strLe a b

theorem charLe_total (a b : Char) : charLe a b = true ∨ charLe b a = true := by
  simp only [charLe, decide_eq_true_eq]
  exact Nat.le_total a.toNat b.toNat

theorem charLe_trans {a b c : Char} (h₁ : charLe a b = true) (h₂ : charLe b c = true) :
    charLe a c = true := by
  simp only [charLe, decide_eq_true_eq] at *
  exact Nat.le_trans h₁ h₂

theorem charLe_antisymm {a b : Char} (h₁ : charLe a b = true) (h₂ : charLe b a = true) :
    a = b := by
  simp only [charLe, decide_eq_true_eq] at *
  apply Char.eq_of_val_eq
  apply UInt32.eq_of_toBitVec_eq
  apply BitVec.eq_of_toNat_eq
  simpa [Char.toNat, UInt32.toNat] using Nat.le_antisymm h₁ h₂

section ListLeLemmas

variable {α : Type} [DecidableEq α] {le : α → α → Bool}

theorem listLe_total (hTot : ∀ a b, le a b = true ∨ le b a = true) :
    ∀ as bs : List α, listLe le as bs = true ∨ listLe le bs as = true
  | [], _ => by left; rfl
  | _ :: _, [] => by right; rfl
  | a :: as, b :: bs => by
    by_cases hab : a = b
    · subst hab
      simpa [listLe] using listLe_total hTot as bs
    · have hba : b ≠ a := fun h => hab h.symm
      simpa [listLe, hab, hba] using hTot a b

theorem listLe_antisymm (hAnti : ∀ a b, le a b = true → le b a = true → a = b) :
    ∀ {as bs : List α}, listLe le as bs = true → listLe le bs as = true → as = bs
  | [], [], _, _ => rfl
  | [], _ :: _, _, h => by simp [listLe] at h
  | _ :: _, [], h, _ => by simp [listLe] at h
  | a :: as, b :: bs, h₁, h₂ => by
    by_cases hab : a = b
    · subst hab
      simp only [listLe, if_pos rfl] at h₁ h₂
      exact congrArg (a :: ·) (listLe_antisymm hAnti h₁ h₂)
    · have hba : b ≠ a := fun h => hab h.symm
      simp only [listLe, if_neg hab] at h₁
      simp only [listLe, if_neg hba] at h₂
      exact absurd (hAnti a b h₁ h₂) hab

theorem listLe_trans (hAnti : ∀ a b, le a b = true → le b a = true → a = b)
    (hTrans : ∀ a b c, le a b = true → le b c = true → le a c = true) :
    ∀ {as bs cs : List α}, listLe le as bs = true → listLe le bs cs = true →
      listLe le as cs = true
  | [], _, _, _, _ => rfl
  | _ :: _, [], _, h, _ => by simp [listLe] at h
  | _ :: _, _ :: _, [], _, h => by simp [listLe] at h
  | a :: as, b :: bs, c :: cs, h₁, h₂ => by
    by_cases hab : a = b
    · subst hab
      by_cases hac : a = c
      · subst hac
        simp only [listLe, if_pos rfl] at h₁ h₂ ⊢
        exact listLe_trans hAnti hTrans h₁ h₂
      · simp only [listLe, if_pos rfl] at h₁
        simpa only [listLe, if_neg hac] using h₂
    · by_cases hbc : b = c
      · subst hbc
        simpa only [listLe, if_neg hab] using h₁
      · simp only [listLe, if_neg hab] at h₁
        simp only [listLe, if_neg hbc] at h₂
        by_cases hac : a = c
        · subst hac
          exact absurd (hAnti a b h₁ h₂) hab
        · simp only [listLe, if_neg hac]
          exact hTrans a b c h₁ h₂

end ListLeLemmas

theorem strLe_total (a b : String) : strLe a b = true ∨ strLe b a = true :=
  listLe_total charLe_total a.data b.data

theorem strLe_trans {a b c : String} (h₁ : strLe a b = true) (h₂ : strLe b c = true) :
    strLe a c = true :=
  listLe_trans (fun _ _ u v => charLe_antisymm u v) (fun _ _ _ u v => charLe_trans u v) h₁ h₂

theorem strLe_antisymm {a b : String} (h₁ : strLe a b = true) (h₂ : strLe b a = true) :
    a = b :=
  String.ext (listLe_antisymm (fun _ _ u v => charLe_antisymm u v) h₁ h₂)

theorem groupLe_total (a b : List String) : groupLe a b = true ∨ groupLe b a = true :=
  listLe_total strLe_total a b

theorem groupLe_trans {a b c : List String} (h₁ : groupLe a b = true)
    (h₂ : groupLe b c = true) : groupLe a c = true :=
  listLe_trans (fun _ _ u v => strLe_antisymm u v) (fun _ _ _ u v => strLe_trans u v) h₁ h₂

theorem groupLe_antisymm {a b : List String} (h₁ : groupLe a b = true)
    (h₂ : groupLe b a = true) : a = b :=
  listLe_antisymm (fun _ _ u v => strLe_antisymm u v) h₁ h₂

/-- The `Prop`-level string order used with `List.insertionSort`. -/
def StrLeP (a b : String) : Prop := strLe a b = true

/-- The `Prop`-level group order used with `List.insertionSort`. -/
def GroupLeP (a b : List String) : Prop := groupLe a b = true

instance : DecidableRel StrLeP := fun a b => decEq (strLe a b) true

instance : DecidableRel GroupLeP := fun a b => decEq (groupLe a b) true

instance : IsTotal String StrLeP := ⟨strLe_total⟩

instance : IsTrans String StrLeP := ⟨fun _ _ _ => strLe_trans⟩

instance : IsAntisymm String StrLeP := ⟨fun _ _ => strLe_antisymm⟩

instance : IsTotal (List String) GroupLeP := ⟨groupLe_total⟩

instance : IsTrans (List String) GroupLeP := ⟨fun _ _ _ => groupLe_trans⟩

instance : IsAntisymm (List String) GroupLeP := ⟨fun _ _ => groupLe_antisymm⟩

/-- `path.split("/")` on the character list, mirroring `os.path` splitting
with `/` separators. -/
def splitOnSlash : List Char → List (List Char)
  | [] => [[]]
  | c :: rest =>
    let r := splitOnSlash rest
    if c = '/' then [] :: r
    else
      match r with
      | [] => [[c]]
      | seg :: segs => (c :: seg) :: segs

/-- Path components, used for `os.path.basename` and `'duplicates' in
path.split(os.sep)`. -/
def pathSegments (p : String) : List (List Char) := splitOnSlash p.data

/-- `os.path.basename`: the component after the last `/`. -/
def basename (p : String) : String := ⟨(pathSegments p).getLastD []⟩

/-- A hidden entry: its basename starts with a dot
(`fname.startswith('.')`). -/
def isHiddenFile (p : String) : Bool :=
  match (pathSegments p).getLastD [] with
  | '.' :: _ => true
  | _ => false

/-- The path has a directory component named `seg`. -/
def hasPathSegment (seg : String) (p : String) : Bool :=
  (pathSegments p).contains seg.data

/-! ## Fingerprinter

Embeds `sample_hash_file` (src/utils.py lines 259-307 and the identical
copy in src/find_duplicates.py lines 78-114).  SHA-256 itself is modelled
as an injective function of its input byte stream, so a digest is
represented by the exact byte sequence fed to the hash: two digests are
equal iff the hashed byte sequences are equal (collision-freeness
assumption of the dedup design). -/

/-- The byte sequence `sample_hash_file` feeds to SHA-256.  With
`sample_size <= 0` the code delegates to `hash_file` (whole file).
Otherwise it hashes the first `sample_size` bytes, then attempts
`seek(-sample_size, SEEK_END)`: the seek raises `OSError` exactly when the
file is shorter than `sample_size` bytes, in which case the digest is reset
and the whole file is hashed; if the seek succeeds, the last `sample_size`
bytes are appended to the head window. -/
def sampleHashInput (sampleSize : Nat) (file : List Nat) : List Nat :=
  if sampleSize = 0 then file
  else if file.length < sampleSize then file
  else file.take sampleSize ++ file.drop (file.length - sampleSize)

/-- The byte sequence `hash_file` feeds to SHA-256: the whole file. -/
def fullHashInput (file : List Nat) : List Nat := file

/-! ## DuplicateScanner

Embeds `iter_files`, `find_duplicates` and `write_duplicates_json`
(src/find_duplicates.py).  A file tree is a list of directory entries as
enumerated by `os.walk(root, followlinks=False)`; each entry carries the
flags the code inspects (`os.path.islink`, `os.path.isfile`).  Read errors
are not modelled (an unreadable file is skipped by the code; here every
entry is readable). -/

structure FsFileEntry where
  path : String
  content : List Nat
  isSymlink : Bool
  isRegularFile : Bool
  deriving Repr, DecidableEq

/-- `iter_files` (src/find_duplicates.py lines 34-54): yields
`(absolute_path, size)` for every walked entry that is a regular file and
not a symlink.  No other filtering is performed. -/
def iterFiles (tree : List FsFileEntry) : List (String × Nat) :=
  tree.filterMap fun e =>
    if e.isRegularFile && !e.isSymlink then some (e.path, e.content.length) else none

/-- Content of the file at `p` (re-reading by path, as the hashing stages
do). -/
def getContent (tree : List FsFileEntry) (p : String) : List Nat :=
  match tree.find? (fun e => e.path = p) with
  | some e => e.content
  | none => []

/-- `defaultdict(list)` accumulation: append `p` to the bucket of `k`,
creating the bucket at the end on first occurrence (Python dict insertion
order). -/
def appendGroup {κ : Type} [DecidableEq κ] (k : κ) (p : String) :
    List (κ × List String) → List (κ × List String)
  | [] => [(k, [p])]
  | (k', ps) :: rest =>
      if k' = k then (k', ps ++ [p]) :: rest else (k', ps) :: appendGroup k p rest

/-- `group_by_size` (src/find_duplicates.py lines 117-121). -/
def groupBySize (files : List (String × Nat)) : List (Nat × List String) :=
  files.foldl (fun acc pr => appendGroup pr.2 pr.1 acc) []

/-- Python `sorted` on strings: the unique permutation sorted by the
code-point order.  (Any two sorted permutations of the same multiset agree
under an antisymmetric total order, so the choice of sorting algorithm is
immaterial.) -/
def sortStrings (l : List String) : List String :=
  l.insertionSort StrLeP

/-- `find_duplicates` (src/find_duplicates.py lines 159-216): size buckets,
then sample-digest buckets within size collisions, then full-hash buckets,
reporting each full-hash group of ≥ 2 paths in sorted order.  Group order
follows dict insertion order, as in the source. -/
def findDuplicates (sampleSize : Nat) (tree : List FsFileEntry) :
    List (List String) :=
  (groupBySize (iterFiles tree)).foldl
    (fun acc szGroup =>
      let paths := szGroup.2
      if paths.length < 2 then acc
      else
        let sampleGroups :=
          paths.foldl
            (fun sg p => appendGroup (sampleHashInput sampleSize (getContent tree p)) p sg)
            []
        sampleGroups.foldl
          (fun acc2 sGroup =>
            let spaths := sGroup.2
            if spaths.length < 2 then acc2
            else
              let fullGroups :=
                spaths.foldl
                  (fun fg p => appendGroup (fullHashInput (getContent tree p)) p fg) []
              fullGroups.foldl
                (fun acc3 fGroup =>
                  if fGroup.2.length > 1 then acc3 ++ [sortStrings fGroup.2] else acc3)
                acc2)
          acc)
    []

/-- `write_duplicates_json` normalization (src/find_duplicates.py lines
231-245): sort paths within each group, then sort the groups by their path
tuple (lexicographic list order). -/
def writeDuplicatesJson (dups : List (List String)) : List (List String) :=
  (dups.map sortStrings).insertionSort GroupLeP

/-! ## ItemStore — SQLite backend

Embeds the per-chat slice of `DatabaseManager` (src/state_db.py) together
with the `StateManager` SQLite code paths (src/state_manager.py).  A
`StateManager` instance works on one fixed `chat_id`, so the state carries
one `chats` row plus the rows of the `messages`, `message_status` and
`file_hashes` tables keyed by `message_id` (the chat-id key component is
fixed).  Timestamps are omitted. -/

/-- One row of `messages` (surrogate `id` and timestamps omitted; the
surrogate row id that `add_message` returns feeds only the
`first_message_id` column of the hash index and is abstracted by the
message id). -/
structure DbMessage where
  filename : String
  file_path : Option String
  file_size : Nat
  sample_hash : Option String
  full_hash : Option String
  deriving Repr, DecidableEq

/-- One row of `message_status`. -/
structure StatusRow where
  status : String
  status_reason : Option String
  deriving Repr, DecidableEq

/-- The counters and cursor of one `chats` row. -/
structure DbChatRow where
  total_files : Nat
  total_bytes : Nat
  last_message_id : Option Nat
  deriving Repr, DecidableEq

/-- Single-chat slice of the SQLite database. -/
structure DbState where
  chat : DbChatRow
  messages : List (Nat × DbMessage)
  message_status : List (Nat × StatusRow)
  file_hashes : FileHashTable
  deriving Repr, DecidableEq

/-- `DatabaseManager.add_message` (src/state_db.py lines 281-310):
`INSERT ... ON CONFLICT(chat_id, message_id) DO UPDATE` — an upsert that
replaces every recorded column. -/
def dbAddMessage (msgId : Nat) (filename : String) (filePath : Option String)
    (fileSize : Nat) (sampleHash fullHash : Option String) (st : DbState) : DbState :=
  { st with messages :=
      upsertKV msgId ⟨filename, filePath, fileSize, sampleHash, fullHash⟩ st.messages }

/-- `DatabaseManager.set_message_status` (src/state_db.py lines 454-468):
upsert keyed by `(chat_id, message_id)`, last write wins. -/
def dbSetMessageStatus (msgId : Nat) (status : String) (reason : Option String)
    (st : DbState) : DbState :=
  { st with message_status := upsertKV msgId ⟨status, reason⟩ st.message_status }

/-- `StateManager.mark_downloaded`, SQLite branch (src/state_manager.py
lines 282-313): add/update the message row, set status `downloaded`,
register the hash in the chat-level and global indices when a sample hash
and a positive size are present (`msg_rec_id` is a SQLite rowid ≥ 1, hence
always truthy), then unconditionally bump the chat counters read via
`get_chat_stats`. -/
def dbMarkDownloaded (chatId msgId : Nat) (filePath : Option String)
    (fileSize : Nat) (sampleHash fullHash : Option String) (st : DbState) : DbState :=
  let filename := match filePath with
    | some p => basename p
    | none => "unknown"
  let st := dbAddMessage msgId filename filePath fileSize sampleHash fullHash st
  let st := dbSetMessageStatus msgId "downloaded" none st
  let st := match sampleHash with
    | some h =>
        if 0 < fileSize then
          -- db.register_file_hash(...) followed by
          -- global_state.register_file(...), which in SQLite mode calls
          -- register_file_hash on the same table without ids
          let fh := registerFileHash fileSize h filePath (some msgId) (some chatId)
            st.file_hashes
          let fh := registerFileHash fileSize h filePath none none fh
          { st with file_hashes := fh }
        else st
    | none => st
  { st with chat :=
      ⟨st.chat.total_files + 1, st.chat.total_bytes + fileSize, some msgId⟩ }

/-- `DatabaseManager.update_file_path` (src/state_db.py lines 343-352):
`UPDATE messages SET file_path, filename WHERE file_path = old`; reports
whether any row changed (`rowcount > 0`). -/
def dbUpdateFilePath (oldPath newPath : String) (st : DbState) : DbState × Bool :=
  ({ st with messages := st.messages.map fun km =>
      if km.2.file_path = some oldPath then
        (km.1, { km.2 with file_path := some newPath, filename := basename newPath })
      else km },
   st.messages.any fun km => km.2.file_path = some oldPath)

/-! ## ItemStore — JSON backend

Embeds the JSON code paths of `StateManager` (src/state_manager.py).  The
`downloaded_messages` dict is keyed by `str(message_id)` in insertion
order. -/

/-- One `downloaded_messages` entry (hash fields present only when
provided). -/
structure JsonFileInfo where
  filename : String
  size : Nat
  path : Option String
  sample_hash : Option String
  full_hash : Option String
  deriving Repr, DecidableEq

/-- The per-chat JSON state document (metadata and timestamps omitted). -/
structure JsonState where
  downloaded_messages : List (String × JsonFileInfo)
  skipped_messages : List Nat
  failed_messages : List Nat
  total_files : Nat
  total_bytes : Nat
  last_message_id : Option Nat
  hash_index : List (String × List String)
  duplicate_map : List (String × String)
  deriving Repr, DecidableEq

/-- `StateManager._update_hash_index` (src/state_manager.py lines 492-513):
append the message id to the bucket of `"size:hash"` unless already there. -/
def jsonUpdateHashIndex (fileSize : Nat) (sampleHash : String) (msgId : String)
    (idx : List (String × List String)) : List (String × List String) :=
  let key := hashKey fileSize sampleHash
  match lookupKV key idx with
  | none => idx ++ [(key, [msgId])]
  | some ids => if msgId ∈ ids then idx else upsertKV key (ids ++ [msgId]) idx

/-- `StateManager.mark_downloaded`, JSON branch (src/state_manager.py lines
315-348): counters bumped only when the key is new, the entry itself
replaced unconditionally, the per-chat and global hash indices updated when
a sample hash and positive size are present.  Returns the new chat state
and the new global index. -/
def jsonMarkDownloaded (msgId : Nat) (filePath : Option String) (fileSize : Nat)
    (sampleHash fullHash : Option String) (st : JsonState) (g : GlobalHashIndex) :
    JsonState × GlobalHashIndex :=
  let key := toString msgId
  let isNew := (lookupKV key st.downloaded_messages).isNone
  let tf := if isNew then st.total_files + 1 else st.total_files
  let tb := if isNew then st.total_bytes + fileSize else st.total_bytes
  let filename := match filePath with
    | some p => basename p
    | none => "unknown"
  let dm := upsertKV key ⟨filename, fileSize, filePath, sampleHash, fullHash⟩
    st.downloaded_messages
  let hig : List (String × List String) × GlobalHashIndex :=
    match sampleHash with
    | some h =>
        if 0 < fileSize then
          (jsonUpdateHashIndex fileSize h key st.hash_index,
           globalRegisterFile fileSize h filePath g)
        else (st.hash_index, g)
    | none => (st.hash_index, g)
  ({ st with
      downloaded_messages := dm
      total_files := tf
      total_bytes := tb
      hash_index := hig.1
      last_message_id := some msgId }, hig.2)

/-- `StateManager.update_file_path`, JSON branch (src/state_manager.py lines
262-269): walk the entries in insertion order, rewrite the first one whose
path matches and stop; report whether a match was found. -/
def jsonUpdateFilePath (oldPath newPath : String) :
    List (String × JsonFileInfo) → List (String × JsonFileInfo) × Bool
  | [] => ([], false)
  | (k, fi) :: rest =>
      if fi.path = some oldPath then
        ((k, { fi with path := some newPath, filename := basename newPath }) :: rest,
         true)
      else
        let r := jsonUpdateFilePath oldPath newPath rest
        ((k, fi) :: r.1, r.2)

/-! ## Duplicate links

Embeds the `duplicates` table and `StateManager.mark_duplicate` /
`is_duplicate`, SQLite branches (src/state_db.py lines 416-437,
src/state_manager.py lines 569-614). -/

/-- The `duplicates` table: `(chat_id, duplicate_msg_id)` (UNIQUE) →
`(canonical_chat_id, canonical_msg_id)`.  The canonical message id column
holds `-1` for cross-chat links, hence `Int`. -/
abbrev DuplicatesTable := List ((Nat × Nat) × (Nat × Int))

/-- `DatabaseManager.mark_duplicate` (src/state_db.py lines 416-425):
`INSERT ... ON CONFLICT(chat_id, duplicate_msg_id) DO NOTHING`. -/
def dbMarkDuplicate (chatId dupMsgId canonicalChatId : Nat) (canonicalMsgId : Int)
    (tbl : DuplicatesTable) : DuplicatesTable :=
  insertIfAbsent (chatId, dupMsgId) (canonicalChatId, canonicalMsgId) tbl

/-- `DatabaseManager.get_duplicate_info` (src/state_db.py lines 427-437). -/
def dbGetDuplicateInfo (chatId msgId : Nat) (tbl : DuplicatesTable) :
    Option (Nat × Int) :=
  lookupKV (chatId, msgId) tbl

/-- The canonical argument of `StateManager.mark_duplicate`: a concrete
message id of the same chat, or the literal `'global'` used for cross-chat
duplicates. -/
inductive CanonicalRef where
  | msgId (id : Nat)
  | global
  deriving Repr, DecidableEq

/-- `StateManager.mark_duplicate`, SQLite branch (src/state_manager.py
lines 577-590): for `'global'` record `(self.chat_id, -1)` as the
canonical, otherwise `(self.chat_id, canonical_msg_id)`. -/
def smMarkDuplicate (chatId dupMsgId : Nat) (canonical : CanonicalRef)
    (tbl : DuplicatesTable) : DuplicatesTable :=
  match canonical with
  | .global => dbMarkDuplicate chatId dupMsgId chatId (-1) tbl
  | .msgId c => dbMarkDuplicate chatId dupMsgId chatId (Int.ofNat c) tbl

/-- `StateManager.is_duplicate`, SQLite branch (src/state_manager.py lines
599-610): `str(canonical_msg_id)` of the stored link, if any. -/
def smIsDuplicate (chatId msgId : Nat) (tbl : DuplicatesTable) : Option String :=
  (dbGetDuplicateInfo chatId msgId tbl).map fun ci => toString ci.2

/-! ## Downloader retry loop

Embeds the retry loop of `MediaDownloader._download_single_media`
(src/downloader.py lines 535-708) as a function of the script of attempt
outcomes the Telegram client produces.  Progress/UI calls are dropped; the
duplicate-detection branch of the success path is collapsed into the
success outcome (it does not interact with the retry accounting under
study). -/

/-- `config.MAX_RETRIES` (src/config.py line 37). -/
def MAX_RETRIES : Nat := 3

/-- `config.RETRY_DELAY` in seconds (src/config.py line 38). -/
def RETRY_DELAY : Nat := 2

/-- What one `download_media` attempt does. -/
inductive DlEvent where
  /-- `download_media` returned a path; the file has `size` bytes. -/
  | success (size : Nat)
  /-- `download_media` returned `None` (no media). -/
  | noMedia
  /-- `FloodWaitError` with `e.seconds = seconds`. -/
  | floodWait (seconds : Nat)
  /-- an exception whose message contains `FILE_REFERENCE`. -/
  | fileRefError
  /-- any other exception. -/
  | otherError
  deriving Repr, DecidableEq

/-- How the loop ended. -/
inductive DlOutcome where
  | downloaded (size : Nat)
  | skipped
  | failed
  /-- the `while retries < MAX_RETRIES` condition failed: the method
  returns with no status recorded for the item. -/
  | abandoned
  /-- the modelled attempt script ran out while the loop was still live. -/
  | outOfScript
  deriving Repr, DecidableEq

structure DlResult where
  outcome : DlOutcome
  /-- the argument of every `asyncio.sleep` call, in order. -/
  sleeps : List Nat
  retries : Nat
  deriving Repr, DecidableEq

/-- The `while retries < config.MAX_RETRIES` loop.  Empty-file results
back off with `RETRY_DELAY * 2 ** retries` (computed before the increment)
and fail at the cap; `FloodWaitError` sleeps exactly `e.seconds` and then
increments `retries`; `FILE_REFERENCE` errors skip immediately; other
exceptions increment, fail at the cap, else sleep `RETRY_DELAY`. -/
def downloadLoop (retries : Nat) (sleeps : List Nat) :
    List DlEvent → DlResult
  | [] =>
      if retries < MAX_RETRIES then ⟨.outOfScript, sleeps, retries⟩
      else ⟨.abandoned, sleeps, retries⟩
  | e :: rest =>
      if retries < MAX_RETRIES then
        match e with
        | .success 0 =>
            let waitTime := RETRY_DELAY * 2 ^ retries
            if MAX_RETRIES ≤ retries + 1 then ⟨.failed, sleeps, retries + 1⟩
            else downloadLoop (retries + 1) (sleeps ++ [waitTime]) rest
        | .success (n + 1) => ⟨.downloaded (n + 1), sleeps, retries⟩
        | .noMedia => ⟨.skipped, sleeps, retries⟩
        | .floodWait n => downloadLoop (retries + 1) (sleeps ++ [n]) rest
        | .fileRefError => ⟨.skipped, sleeps, retries⟩
        | .otherError =>
            if MAX_RETRIES ≤ retries + 1 then ⟨.failed, sleeps, retries + 1⟩
            else downloadLoop (retries + 1) (sleeps ++ [RETRY_DELAY]) rest
      else ⟨.abandoned, sleeps, retries⟩

/-- The property claimed of rate limiting: after sleeping exactly the
requested seconds the loop continues with the retry budget untouched. -/
def FloodWaitDoesNotCountClaim : Prop :=
  ∀ (r : Nat) (s : List Nat) (n : Nat) (rest : List DlEvent),
    r < MAX_RETRIES →
    downloadLoop r s (.floodWait n :: rest) = downloadLoop r (s ++ [n]) rest

/-! ## Reconciler

Embeds `sync_chat_state` and the stale-row pass of `sync_state`
(src/sync_state.py lines 152-216 and 489-503).  `sync_state.py` calls an
extended `DatabaseManager` API (`add_message` with `local_path` /
`remote_path` / `remote_ref` / `storage_status` keyword arguments, and
`mark_message_missing`) that src/state_db.py does not define; those two
writes are modelled from the spec below. -/

/-- One scanned record, as produced by `scan_local_files` /
`scan_remote_files` after id resolution (only the fields `sync_chat_state`
reads). -/
structure SyncRecord where
  message_id : Option Nat
  filename : String
  file_path : Option String
  file_size : Nat
  sample_hash : Option String
  local_path : Option String
  remote_path : Option String
  remote_ref : Option String
  deriving Repr, DecidableEq

/-- One reconciled `messages` row with its storage location tag. -/
structure SyncedMessage where
  filename : String
  file_path : Option String
  file_size : Nat
  sample_hash : Option String
  local_path : Option String
  remote_path : Option String
  remote_ref : Option String
  storage_status : String
  deriving Repr, DecidableEq

/-- Single-chat slice of the database as the reconciler sees it. -/
structure SyncDb where
  messages : List (Nat × SyncedMessage)
  message_status : List (Nat × StatusRow)
  deriving Repr, DecidableEq

/-- Modelled from the spec: the extended `DatabaseManager.add_message` that
`sync_chat_state` calls with `local_path`, `remote_path`, `remote_ref` and
`storage_status` keyword arguments is absent from src/state_db.py (its
`add_message` has no such parameters).  Per the spec, all item writes are
upserts keyed by (collection id, source id), replacing the recorded
attributes including the storage location tag. -/
def addMessageSynced (msgId : Nat) (m : SyncedMessage) (db : SyncDb) : SyncDb :=
  { db with messages := upsertKV msgId m db.messages }

/-- `DatabaseManager.set_message_status` acting on the reconciler slice
(src/state_db.py lines 454-468). -/
def setMessageStatusSync (msgId : Nat) (status : String) (reason : Option String)
    (db : SyncDb) : SyncDb :=
  { db with message_status := upsertKV msgId ⟨status, reason⟩ db.message_status }

/-- Modelled from the spec: `DatabaseManager.mark_message_missing` is
called by `sync_state` (src/sync_state.py line 502) but absent from
src/state_db.py.  Per the spec, an item "present in ItemStore but absent
from both current listings" gets "status 'missing' (soft, row retained)";
the call site counts truthy returns, so the call reports whether the row
was newly marked. -/
def markMessageMissing (msgId : Nat) (db : SyncDb) : SyncDb × Bool :=
  ({ db with message_status := upsertKV msgId ⟨"missing", none⟩ db.message_status },
   ((lookupKV msgId db.message_status).map (·.status)) ≠ some "missing")

/-- `{r['message_id']: r for r in records if r.get('message_id') is not None}`:
a Python dict comprehension — later duplicates overwrite the value while
the key keeps its first position. -/
def buildRecordMap (recs : List SyncRecord) : List (Nat × SyncRecord) :=
  recs.foldl
    (fun m r =>
      match r.message_id with
      | some i => upsertKV i r m
      | none => m)
    []

/-- The body of the `for msg_id in all_msg_ids` loop of `sync_chat_state`:
write the merged row and its status according to presence in the local and
remote maps. -/
def processMsgId (localMap remoteMap : List (Nat × SyncRecord)) (msgId : Nat)
    (db : SyncDb) : SyncDb :=
  match lookupKV msgId localMap, lookupKV msgId remoteMap with
  | some l, some r =>
      let db := addMessageSynced msgId
        ⟨l.filename, l.file_path, l.file_size, l.sample_hash <|> r.sample_hash,
         l.local_path, r.remote_path, r.remote_ref, "both"⟩ db
      setMessageStatusSync msgId "downloaded" (some "available in local and remote") db
  | some l, none =>
      let db := addMessageSynced msgId
        ⟨l.filename, l.file_path, l.file_size, l.sample_hash,
         l.local_path, none, none, "local"⟩ db
      setMessageStatusSync msgId "downloaded" (some "available locally") db
  | none, some r =>
      let db := addMessageSynced msgId
        ⟨r.filename, none, r.file_size, r.sample_hash,
         none, r.remote_path, r.remote_ref, "remote"⟩ db
      setMessageStatusSync msgId "downloaded" (some "available remotely") db
  | none, none => db

/-- `sync_chat_state` (src/sync_state.py lines 152-216).  The union
`set(local_map) | set(remote_map)` is iterated in an unspecified order;
since each iteration writes only its own key, the final state is
order-independent, and the canonical order below is the deduplicated
concatenation of the two key lists. -/
def syncChatState (localRecs remoteRecs : List SyncRecord) (db : SyncDb) : SyncDb :=
  let localMap := buildRecordMap localRecs
  let remoteMap := buildRecordMap remoteRecs
  let ids := (localMap.map (·.1) ++ remoteMap.map (·.1)).dedup
  ids.foldl (fun d i => processMsgId localMap remoteMap i d) db

/-- The stale-row pass of `sync_state` (src/sync_state.py lines 493-503):
every previously recorded row whose id was seen in neither current listing
is marked missing (`for row in existing_messages: ...`). -/
def markStaleMissing : List (Nat × SyncedMessage) → List Nat → SyncDb → SyncDb
  | [], _, db => db
  | row :: rest, seen, db =>
      markStaleMissing rest seen
        (if row.1 ∈ seen then db else (markMessageMissing row.1 db).1)

/-- One chat's reconciliation round as `sync_state` performs it:
`existing_messages` is snapshotted, `sync_chat_state` merges the listings,
then rows seen in neither listing are marked missing. -/
def reconcileChat (localRecs remoteRecs : List SyncRecord) (db : SyncDb) : SyncDb :=
  let existing := db.messages
  let seen := (localRecs ++ remoteRecs).filterMap (·.message_id)
  let db := syncChatState localRecs remoteRecs db
  markStaleMissing existing seen db

/-- The row `processMsgId` writes for a given id, as a function of the two
maps (statement-side companion of `processMsgId`). -/
def syncedMessageFor (localMap remoteMap : List (Nat × SyncRecord)) (msgId : Nat) :
    Option SyncedMessage :=
  match lookupKV msgId localMap, lookupKV msgId remoteMap with
  | some l, some r =>
      some ⟨l.filename, l.file_path, l.file_size, l.sample_hash <|> r.sample_hash,
        l.local_path, r.remote_path, r.remote_ref, "both"⟩
  | some l, none =>
      some ⟨l.filename, l.file_path, l.file_size, l.sample_hash,
        l.local_path, none, none, "local"⟩
  | none, some r =>
      some ⟨r.filename, none, r.file_size, r.sample_hash,
        none, r.remote_path, r.remote_ref, "remote"⟩
  | none, none => none

/-! ## Claim theorems -/

/-- C2: for every key (size, fingerprint), registration in the global dedup
index is idempotent and first-write-wins in both backends: registering a
second path under an already-registered key is a no-op, and lookup returns
the first registered path. -/
theorem c2_register_first_write_wins
    (tbl : FileHashTable) (g : GlobalHashIndex) (fsExists : String → Bool)
    (size : Nat) (hash p1 p2 : String) (m1 c1 m2 c2 : Option Nat)
    (hdb : lookupKV (hashKey size hash) tbl = none)
    (hjs : lookupKV (hashKey size hash) g = none)
    (hfs : fsExists p1 = true) :
    registerFileHash size hash (some p2) m2 c2
        (registerFileHash size hash (some p1) m1 c1 tbl)
      = registerFileHash size hash (some p1) m1 c1 tbl ∧
    findDuplicateByHash size hash
        (registerFileHash size hash (some p2) m2 c2
          (registerFileHash size hash (some p1) m1 c1 tbl)) = some p1 ∧
    globalRegisterFile size hash (some p2) (globalRegisterFile size hash (some p1) g)
      = globalRegisterFile size hash (some p1) g ∧
    (globalFindDuplicate fsExists size hash
        (globalRegisterFile size hash (some p2)
          (globalRegisterFile size hash (some p1) g))).1 = some p1 := by
  have h1 : lookupKV (hashKey size hash)
      (registerFileHash size hash (some p1) m1 c1 tbl)
      = some ⟨size, hash, some p1, m1, c1⟩ :=
    lookupKV_insertIfAbsent_absent _ _ _ hdb
  have h2 : lookupKV (hashKey size hash) (globalRegisterFile size hash (some p1) g)
      = some (some p1) :=
    lookupKV_insertIfAbsent_absent _ _ _ hjs
  have e1 : registerFileHash size hash (some p2) m2 c2
      (registerFileHash size hash (some p1) m1 c1 tbl)
      = registerFileHash size hash (some p1) m1 c1 tbl :=
    insertIfAbsent_present _ _ _ (by rw [h1]; rfl)
  have e2 : globalRegisterFile size hash (some p2)
      (globalRegisterFile size hash (some p1) g)
      = globalRegisterFile size hash (some p1) g :=
    insertIfAbsent_present _ _ _ (by rw [h2]; rfl)
  refine ⟨e1, ?_, e2, ?_⟩
  · rw [e1]
    simp [findDuplicateByHash, h1]
  · rw [e2]
    simp [globalFindDuplicate, h2, hfs]

/-- C2 witness: concrete instantiation of the first-write-wins theorem. -/
theorem c2_register_first_write_wins_witness :
    findDuplicateByHash 10 "h"
        (registerFileHash 10 "h" (some "/b") none none
          (registerFileHash 10 "h" (some "/a") (some 1) (some 1) [])) = some "/a" :=
  (c2_register_first_write_wins [] [] (fun _ => true) 10 "h" "/a" "/b"
    (some 1) (some 1) none none rfl rfl rfl).2.1

/-- C3 counterexample: a file of 3 bytes with `sample_size = 2` is shorter
than `2 × sample_size`, yet the digest input is head++tail `[0,1,1,2]`, not
the whole file `[0,1,2]`; the middle byte is hashed twice. -/
theorem c3_overlap_counterexample :
    3 < 2 * 2 ∧
    sampleHashInput 2 [0, 1, 2] = [0, 1, 1, 2] ∧
    sampleHashInput 2 [0, 1, 2] ≠ [0, 1, 2] ∧
    List.count 1 (sampleHashInput 2 [0, 1, 2]) = 2 ∧
    List.count 1 [0, 1, 2] = 1 := by
  decide

/-- C3 (amended): the whole-file fallback fires only when the file is
shorter than `sample_size` itself; for `sample_size ≤ length`, the digest
input is the first window concatenated with the last window, which has
length `2 × sample_size` — so for lengths in `[sample_size, 2·sample_size)`
the overlap is hashed twice. -/
theorem c3_sample_hash_windows (S : Nat) (file : List Nat) :
    (file.length < S → sampleHashInput S file = file) ∧
    (0 < S → S ≤ file.length →
      sampleHashInput S file = file.take S ++ file.drop (file.length - S) ∧
      (sampleHashInput S file).length = 2 * S) := by
  constructor
  · intro hlt
    unfold sampleHashInput
    by_cases hS : S = 0
    · simp [hS]
    · simp [hS, hlt]
  · intro hS hle
    have hnot : ¬file.length < S := Nat.not_lt.mpr hle
    have hS0 : S ≠ 0 := Nat.pos_iff_ne_zero.mp hS
    constructor
    · unfold sampleHashInput
      simp [hS0, hnot]
    · unfold sampleHashInput
      simp only [hS0, hnot, if_false, if_neg]
      rw [List.length_append, List.length_take, List.length_drop]
      omega

/-- C3 witness: the window decomposition evaluated on a concrete short
file. -/
theorem c3_sample_hash_windows_witness :
    sampleHashInput 2 [9, 9, 9] = ([9, 9, 9].take 2 ++ [9, 9, 9].drop 1 : List Nat) ∧
    (sampleHashInput 2 [9, 9, 9]).length = 2 * 2 :=
  (c3_sample_hash_windows 2 [9, 9, 9]).2 (by decide) (by decide)

/-- C5: resume validation is false without a recorded path, a missing
path, or an empty file; with a declared size `> 0` it accepts exactly the
sizes within 1% relative or 1024 bytes absolute tolerance — in particular
declared 1,000,000 with actual 1,000,005 is valid, actual 0 and actual
500,000 are invalid. -/
theorem c5_resume_validation
    (fs : String → Option Nat) (p : String) (e a : Nat) :
    (validateDownloadedFile fs none e = false) ∧
    (fs p = none → validateDownloadedFile fs (some p) e = false) ∧
    (fs p = some 0 → validateDownloadedFile fs (some p) e = false) ∧
    (fs p = some a → 0 < a → 0 < e →
      (validateDownloadedFile fs (some p) e = true ↔
        (100 * sizeDiff a e ≤ e ∨ sizeDiff a e ≤ 1024))) ∧
    validateDownloadedFile (fun _ => some 1000005) (some "f") 1000000 = true ∧
    validateDownloadedFile (fun _ => some 0) (some "f") 1000000 = false ∧
    validateDownloadedFile (fun _ => some 500000) (some "f") 1000000 = false := by
  refine ⟨rfl, ?_, ?_, ?_, by decide, by decide, by decide⟩
  · intro h
    simp [validateDownloadedFile, h]
  · intro h
    simp [validateDownloadedFile, h]
  · intro h ha he
    have ha' : a ≠ 0 := Nat.pos_iff_ne_zero.mp ha
    simp only [validateDownloadedFile, h, ha', if_neg, if_pos he]
    constructor
    · intro hv
      by_contra hcon
      push_neg at hcon
      have h1 : 100 * sizeDiff a e > e := Nat.lt_of_not_le (by omega)
      have h2 : sizeDiff a e > 1024 := by omega
      simp [ha', h1, h2] at hv
    · intro hv
      rcases hv with hv | hv
      · have : ¬(100 * sizeDiff a e > e) := by omega
        simp [ha', this]
      · have : ¬(sizeDiff a e > 1024) := by omega
        simp [ha', this]

/-- C5 witness: the tolerance characterization applied at declared size
1,000,000 and actual size 1,000,005. -/
theorem c5_resume_validation_witness :
    validateDownloadedFile (fun _ => some 1000005) (some "f") 1000000 = true :=
  ((c5_resume_validation (fun _ => some 1000005) "f" 1000000 1000005).2.2.2.1
    rfl (by decide) (by decide)).mpr (by decide)

/-- C9 counterexample: three consecutive rate-limit waits exhaust the
retry budget, so the flood-wait retry does count against
`MAX_RETRIES` — at retries = 2 the claimed equivalence between handling a
flood wait and merely logging the sleep fails. -/
theorem c9_floodwait_counts_counterexample : ¬FloodWaitDoesNotCountClaim := by
  intro h
  have := h 2 [] 1 [.success 10] (by decide)
  exact absurd this (by decide)

/-- C9 (amended): a rate limit asking for `n` seconds makes the loop sleep
exactly `n` seconds (no backoff scaling) and retry, and the retry
increments the capped retry counter. -/
theorem c9_floodwait_sleeps_and_counts
    (r : Nat) (s : List Nat) (n : Nat) (rest : List DlEvent)
    (h : r < MAX_RETRIES) :
    downloadLoop r s (.floodWait n :: rest) = downloadLoop (r + 1) (s ++ [n]) rest := by
  simp [downloadLoop, h]

/-- C9 witness: the flood-wait step evaluated from a fresh retry budget. -/
theorem c9_floodwait_sleeps_and_counts_witness :
    downloadLoop 0 [] [.floodWait 5] = downloadLoop 1 ([] ++ [5]) [] :=
  c9_floodwait_sleeps_and_counts 0 [] 5 [] (by decide)

/-- C10: marking a cross-chat duplicate (`'global'` canonical) records the
duplicate's own chat id with canonical message id `-1`, and a later
`is_duplicate` returns the string `"-1"`; the true canonical item's
identity does not appear in the stored link. -/
theorem c10_global_duplicate_link
    (tbl : DuplicatesTable) (chatId dupId : Nat)
    (h : lookupKV (chatId, dupId) tbl = none) :
    dbGetDuplicateInfo chatId dupId (smMarkDuplicate chatId dupId .global tbl)
      = some (chatId, -1) ∧
    smIsDuplicate chatId dupId (smMarkDuplicate chatId dupId .global tbl)
      = some "-1" := by
  have h1 : lookupKV (chatId, dupId)
      (smMarkDuplicate chatId dupId .global tbl) = some (chatId, -1) :=
    lookupKV_insertIfAbsent_absent _ _ _ h
  refine ⟨h1, ?_⟩
  simp [smIsDuplicate, dbGetDuplicateInfo, h1]
  rfl

/-- C10 witness: the global duplicate link evaluated on an empty table. -/
theorem c10_global_duplicate_link_witness :
    smIsDuplicate 4 9 (smMarkDuplicate 4 9 .global []) = some "-1" :=
  (c10_global_duplicate_link [] 4 9 rfl).2

/-- C1 counterexample: in the SQLite backend, re-applying
`mark_downloaded` for the same (chat, message) key leaves the message row
as a pure update, yet the chat counters are incremented again — files and
bytes are double-counted. -/
theorem c1_sqlite_double_count_counterexample :
    (dbMarkDownloaded 1 7 (some "/b/f.bin") 100 (some "h") none
        ⟨⟨0, 0, none⟩, [], [], []⟩).chat.total_files = 1 ∧
    (dbMarkDownloaded 1 7 (some "/b/f.bin") 100 (some "h") none
        (dbMarkDownloaded 1 7 (some "/b/f.bin") 100 (some "h") none
          ⟨⟨0, 0, none⟩, [], [], []⟩)).chat.total_files = 2 ∧
    (dbMarkDownloaded 1 7 (some "/b/f.bin") 100 (some "h") none
        (dbMarkDownloaded 1 7 (some "/b/f.bin") 100 (some "h") none
          ⟨⟨0, 0, none⟩, [], [], []⟩)).chat.total_bytes = 200 ∧
    lookupKV 7 (dbMarkDownloaded 1 7 (some "/b/f.bin") 100 (some "h") none
        (dbMarkDownloaded 1 7 (some "/b/f.bin") 100 (some "h") none
          ⟨⟨0, 0, none⟩, [], [], []⟩)).messages
      = lookupKV 7 (dbMarkDownloaded 1 7 (some "/b/f.bin") 100 (some "h") none
          ⟨⟨0, 0, none⟩, [], [], []⟩).messages := by
  decide

/-- C1 (amended): the JSON backend increments the chat counters only on
the first insert of a message key — a re-applied identical write leaves
them unchanged — while the SQLite backend increments `total_files` and
`total_bytes` on every `mark_downloaded` call, insert or update. -/
theorem c1_counter_increment_semantics
    (st : DbState) (chatId msgId : Nat) (path : Option String) (size : Nat)
    (sh fh : Option String) (js : JsonState) (g : GlobalHashIndex)
    (hnew : lookupKV (toString msgId) js.downloaded_messages = none) :
    ((dbMarkDownloaded chatId msgId path size sh fh st).chat.total_files
        = st.chat.total_files + 1 ∧
      (dbMarkDownloaded chatId msgId path size sh fh st).chat.total_bytes
        = st.chat.total_bytes + size) ∧
    ((jsonMarkDownloaded msgId path size sh fh js g).1.total_files
        = js.total_files + 1 ∧
      (jsonMarkDownloaded msgId path size sh fh js g).1.total_bytes
        = js.total_bytes + size) ∧
    ((jsonMarkDownloaded msgId path size sh fh
          (jsonMarkDownloaded msgId path size sh fh js g).1
          (jsonMarkDownloaded msgId path size sh fh js g).2).1.total_files
        = (jsonMarkDownloaded msgId path size sh fh js g).1.total_files ∧
      (jsonMarkDownloaded msgId path size sh fh
          (jsonMarkDownloaded msgId path size sh fh js g).1
          (jsonMarkDownloaded msgId path size sh fh js g).2).1.total_bytes
        = (jsonMarkDownloaded msgId path size sh fh js g).1.total_bytes) := by
  refine ⟨⟨?_, ?_⟩, ⟨?_, ?_⟩, ?_, ?_⟩
  · cases sh with
    | none => simp [dbMarkDownloaded, dbAddMessage, dbSetMessageStatus]
    | some h =>
        by_cases hsz : 0 < size <;>
          simp [dbMarkDownloaded, dbAddMessage, dbSetMessageStatus, hsz]
  · cases sh with
    | none => simp [dbMarkDownloaded, dbAddMessage, dbSetMessageStatus]
    | some h =>
        by_cases hsz : 0 < size <;>
          simp [dbMarkDownloaded, dbAddMessage, dbSetMessageStatus, hsz]
  · simp [jsonMarkDownloaded, hnew]
  · simp [jsonMarkDownloaded, hnew]
  · simp [jsonMarkDownloaded, lookupKV_upsertKV_self]
  · simp [jsonMarkDownloaded, lookupKV_upsertKV_self]

/-- C1 witness: the increment semantics evaluated on empty states. -/
theorem c1_counter_increment_semantics_witness :
    ((jsonMarkDownloaded 7 (some "/b/f.bin") 100 (some "h") none
        ⟨[], [], [], 0, 0, none, [], []⟩ []).1.total_files = 0 + 1) :=
  (c1_counter_increment_semantics ⟨⟨0, 0, none⟩, [], [], []⟩ 1 7
    (some "/b/f.bin") 100 (some "h") none
    ⟨[], [], [], 0, 0, none, [], []⟩ [] rfl).2.1.1

/-- C4 counterexample: with two records holding the same path, `updatePath`
rewrites both rows in the SQLite backend but only the first entry in the
JSON backend — the two backends change different sets of records for the
same operation on corresponding states. -/
theorem c4_update_path_divergence_counterexample :
    (dbUpdateFilePath "x" "y"
        ⟨⟨0, 0, none⟩, [(1, ⟨"f", some "x", 5, none, none⟩),
          (2, ⟨"f", some "x", 5, none, none⟩)], [], []⟩).2 = true ∧
    (jsonUpdateFilePath "x" "y"
        [("1", ⟨"f", 5, some "x", none, none⟩),
         ("2", ⟨"f", 5, some "x", none, none⟩)]).2 = true ∧
    (lookupKV 2 (dbUpdateFilePath "x" "y"
        ⟨⟨0, 0, none⟩, [(1, ⟨"f", some "x", 5, none, none⟩),
          (2, ⟨"f", some "x", 5, none, none⟩)], [], []⟩).1.messages).map
      (·.file_path) = some (some "y") ∧
    (lookupKV "2" (jsonUpdateFilePath "x" "y"
        [("1", ⟨"f", 5, some "x", none, none⟩),
         ("2", ⟨"f", 5, some "x", none, none⟩)]).1).map (·.path)
      = some (some "x") := by
  decide

/-- The record translation between the two backends' message stores. -/
def dbMsgToJson (km : Nat × DbMessage) : String × JsonFileInfo :=
  (toString km.1, ⟨km.2.filename, km.2.file_size, km.2.file_path,
    km.2.sample_hash, km.2.full_hash⟩)

theorem jsonUpdateFilePath_map_eq (oldPath newPath : String) :
    ∀ msgs : List (Nat × DbMessage),
      (msgs.countP fun km => km.2.file_path = some oldPath) ≤ 1 →
      (jsonUpdateFilePath oldPath newPath (msgs.map dbMsgToJson)).1
        = (msgs.map fun km =>
            if km.2.file_path = some oldPath then
              (km.1, { km.2 with file_path := some newPath, filename := basename newPath })
            else km).map dbMsgToJson ∧
      (jsonUpdateFilePath oldPath newPath (msgs.map dbMsgToJson)).2
        = msgs.any fun km => km.2.file_path = some oldPath
  | [], _ => by simp [jsonUpdateFilePath]
  | km :: rest, hcount => by
    by_cases h : km.2.file_path = some oldPath
    · have hrest : (rest.countP fun km => km.2.file_path = some oldPath) = 0 := by
        rw [List.countP_cons_of_pos _ _ (by simpa using h)] at hcount
        omega
      have hnone : ∀ km' ∈ rest, ¬(km'.2.file_path = some oldPath) := by
        intro km' hmem
        have := List.countP_eq_zero.mp hrest km' hmem
        simpa using this
      have hmap : (rest.map fun km =>
          if km.2.file_path = some oldPath then
            (km.1, { km.2 with file_path := some newPath, filename := basename newPath })
          else km) = rest := by
        apply map_eq_self_of_eq_id
        intro km' hmem
        simp [hnone km' hmem]
      constructor
      · simp only [List.map_cons, jsonUpdateFilePath, dbMsgToJson, h, if_pos,
          hmap]
      · simp only [List.map_cons, jsonUpdateFilePath, dbMsgToJson]
        simp [h]
    · have hcount' : (rest.countP fun km => km.2.file_path = some oldPath) ≤ 1 := by
        rw [List.countP_cons_of_neg _ _ (by simpa using h)] at hcount
        exact hcount
      have ih := jsonUpdateFilePath_map_eq oldPath newPath rest hcount'
      constructor
      · simp only [List.map_cons, jsonUpdateFilePath, dbMsgToJson, h,
          if_neg, ih.1]
        simp [h]
      · simp only [List.map_cons, jsonUpdateFilePath, dbMsgToJson]
        simp [h, ih.2]

/-- C4 (amended): the two backends do not satisfy identical contracts —
`updatePath` rewrites every matching row in SQLite but only the first in
JSON, and re-applied `mark_downloaded` writes double-count counters only
in SQLite.  When at most one record holds the old path, the `updatePath`
results of the two backends do correspond: the rewritten stores translate
to each other and the reported results agree. -/
theorem c4_update_path_agree_when_unique
    (chat : DbChatRow) (msgs : List (Nat × DbMessage))
    (sts : List (Nat × StatusRow)) (fhs : FileHashTable) (oldPath newPath : String)
    (hUnique : (msgs.countP fun km => km.2.file_path = some oldPath) ≤ 1) :
    (jsonUpdateFilePath oldPath newPath (msgs.map dbMsgToJson)).1
      = ((dbUpdateFilePath oldPath newPath ⟨chat, msgs, sts, fhs⟩).1.messages).map
          dbMsgToJson ∧
    (jsonUpdateFilePath oldPath newPath (msgs.map dbMsgToJson)).2
      = (dbUpdateFilePath oldPath newPath ⟨chat, msgs, sts, fhs⟩).2 := by
  have h := jsonUpdateFilePath_map_eq oldPath newPath msgs hUnique
  exact ⟨h.1, h.2⟩

/-- C4 witness: backend agreement evaluated on a two-row store with a
unique old path. -/
theorem c4_update_path_agree_when_unique_witness :
    (jsonUpdateFilePath "x" "y"
        ([(1, ⟨"f", some "x", 5, none, none⟩),
          (2, ⟨"g", some "z", 6, none, none⟩)].map dbMsgToJson)).2
      = (dbUpdateFilePath "x" "y"
          ⟨⟨0, 0, none⟩, [(1, ⟨"f", some "x", 5, none, none⟩),
            (2, ⟨"g", some "z", 6, none, none⟩)], [], []⟩).2 :=
  (c4_update_path_agree_when_unique ⟨0, 0, none⟩
    [(1, ⟨"f", some "x", 5, none, none⟩), (2, ⟨"g", some "z", 6, none, none⟩)]
    [] [] "x" "y" (by decide)).2

theorem foldl_preserves {α β : Type} (P : β → Prop) (f : β → α → β)
    (hf : ∀ b a, P b → P (f b a)) : ∀ (l : List α) (b : β), P b → P (l.foldl f b)
  | [], _, hb => hb
  | a :: l, b, hb => foldl_preserves P f hf l (f b a) (hf b a hb)

theorem sortStrings_sorted (l : List String) : List.Sorted StrLeP (sortStrings l) :=
  List.sorted_insertionSort StrLeP l

theorem findDuplicates_groups_sorted (S : Nat) (tree : List FsFileEntry) :
    ∀ g ∈ findDuplicates S tree, List.Sorted StrLeP g := by
  unfold findDuplicates
  refine foldl_preserves (fun acc => ∀ g ∈ acc, List.Sorted StrLeP g) _ ?_ _ _ ?_
  · intro acc szGroup hacc
    dsimp only
    split
    · exact hacc
    · refine foldl_preserves (fun acc => ∀ g ∈ acc, List.Sorted StrLeP g) _ ?_ _ _ hacc
      intro acc2 sGroup hacc2
      dsimp only
      split
      · exact hacc2
      · refine foldl_preserves (fun acc => ∀ g ∈ acc, List.Sorted StrLeP g) _ ?_ _ _ hacc2
        intro acc3 fGroup hacc3
        dsimp only
        split
        · intro g hg
          rcases List.mem_append.mp hg with hold | hnew
          · exact hacc3 g hold
          · rw [List.mem_singleton] at hnew
            subst hnew
            exact sortStrings_sorted _
        · exact hacc3
  · intro g hg
    simp at hg

theorem mem_writeDuplicatesJson_sorted (dups : List (List String)) :
    ∀ g ∈ writeDuplicatesJson dups, List.Sorted StrLeP g := by
  intro g hg
  unfold writeDuplicatesJson at hg
  rw [List.mem_insertionSort] at hg
  rcases List.mem_map.mp hg with ⟨g', _, rfl⟩
  exact sortStrings_sorted g'

theorem writeDuplicatesJson_sorted (dups : List (List String)) :
    List.Sorted GroupLeP (writeDuplicatesJson dups) :=
  List.sorted_insertionSort GroupLeP _

theorem writeDuplicatesJson_idempotent (dups : List (List String)) :
    writeDuplicatesJson (writeDuplicatesJson dups) = writeDuplicatesJson dups := by
  have h1 : (writeDuplicatesJson dups).map sortStrings = writeDuplicatesJson dups := by
    apply map_eq_self_of_eq_id
    intro g hg
    exact List.Sorted.insertionSort_eq (mem_writeDuplicatesJson_sorted dups g hg)
  show ((writeDuplicatesJson dups).map sortStrings).insertionSort GroupLeP
    = writeDuplicatesJson dups
  rw [h1]
  exact List.Sorted.insertionSort_eq (writeDuplicatesJson_sorted dups)

/-- C6: the scanner output is deterministic — every reported group is
sorted lexicographically, the written JSON has its groups sorted by their
sorted path tuple, and normalizing the already-normalized output changes
nothing, so repeat runs on an unchanged tree produce identical,
identically-ordered output. -/
theorem c6_scanner_deterministic_output (S : Nat) (tree : List FsFileEntry) :
    (∀ g ∈ findDuplicates S tree, List.Sorted StrLeP g) ∧
    (∀ g ∈ writeDuplicatesJson (findDuplicates S tree), List.Sorted StrLeP g) ∧
    List.Sorted GroupLeP (writeDuplicatesJson (findDuplicates S tree)) ∧
    writeDuplicatesJson (writeDuplicatesJson (findDuplicates S tree))
      = writeDuplicatesJson (findDuplicates S tree) :=
  ⟨findDuplicates_groups_sorted S tree,
   mem_writeDuplicatesJson_sorted (findDuplicates S tree),
   writeDuplicatesJson_sorted (findDuplicates S tree),
   writeDuplicatesJson_idempotent (findDuplicates S tree)⟩

/-- C6 witness: group sortedness of the scanner applied to a concrete
two-file tree with identical contents. -/
theorem c6_scanner_deterministic_output_witness :
    List.Sorted StrLeP ["/t/a", "/t/b"] :=
  (c6_scanner_deterministic_output 65536
      [⟨"/t/b", [5], false, true⟩, ⟨"/t/a", [5], false, true⟩]).1
    ["/t/a", "/t/b"] (by decide)

/-- C7 counterexample: the traversal of `find_duplicates` skips only
symlinks and non-regular entries, so two identical hidden files inside the
`duplicates` quarantine subtree are reported as a duplicate group. -/
theorem c7_hidden_quarantine_counterexample :
    findDuplicates 65536
        [⟨"/r/duplicates/.a", [1, 2, 3], false, true⟩,
         ⟨"/r/duplicates/.b", [1, 2, 3], false, true⟩]
      = [["/r/duplicates/.a", "/r/duplicates/.b"]] ∧
    isHiddenFile "/r/duplicates/.a" = true ∧
    hasPathSegment "duplicates" "/r/duplicates/.a" = true ∧
    isHiddenFile "/r/duplicates/.b" = true ∧
    hasPathSegment "duplicates" "/r/duplicates/.b" = true := by
  decide

/-- C7 (amended): the scanner's traversal excludes exactly the symlinks
and non-regular entries: every yielded file stems from a non-symlink
regular entry, and every non-symlink regular entry is yielded — hidden
files and the quarantine subtree included. -/
theorem c7_iter_files_filters (tree : List FsFileEntry) (e : FsFileEntry)
    (pr : String × Nat) :
    (pr ∈ iterFiles tree →
      ∃ e' ∈ tree, e'.isRegularFile = true ∧ e'.isSymlink = false ∧
        pr = (e'.path, e'.content.length)) ∧
    (e ∈ tree → e.isRegularFile = true → e.isSymlink = false →
      (e.path, e.content.length) ∈ iterFiles tree) := by
  constructor
  · intro hpr
    unfold iterFiles at hpr
    rcases List.mem_filterMap.mp hpr with ⟨e', he', hmap⟩
    by_cases hreg : e'.isRegularFile
    · by_cases hsym : e'.isSymlink
      · simp [hreg, hsym] at hmap
      · refine ⟨e', he', hreg, by simpa using hsym, ?_⟩
        simp [hreg, hsym] at hmap
        exact hmap.symm
    · simp [hreg] at hmap
  · intro he hreg hsym
    unfold iterFiles
    exact List.mem_filterMap.mpr ⟨e, he, by simp [hreg, hsym]⟩

/-- C7 witness: a hidden regular file inside the quarantine subtree is
yielded by the traversal. -/
theorem c7_iter_files_filters_witness :
    ("/q/duplicates/.h", 1) ∈
      iterFiles [⟨"/q/duplicates/.h", [7], false, true⟩] :=
  (c7_iter_files_filters [⟨"/q/duplicates/.h", [7], false, true⟩]
      ⟨"/q/duplicates/.h", [7], false, true⟩ ("/q/duplicates/.h", 1)).2
    (by decide) rfl rfl

theorem mem_keys_of_lookupKV_isSome {κ β : Type} [DecidableEq κ] {k : κ} :
    ∀ {l : List (κ × β)}, (lookupKV k l).isSome → k ∈ l.map (·.1)
  | [], h => by simp [lookupKV] at h
  | (k', v') :: rest, h => by
    by_cases hk : k' = k
    · simp [hk]
    · simp only [lookupKV, if_neg hk] at h
      simpa using Or.inr (mem_keys_of_lookupKV_isSome h)

theorem lookupKV_isSome_of_mem_keys {κ β : Type} [DecidableEq κ] {k : κ} :
    ∀ {l : List (κ × β)}, k ∈ l.map (·.1) → (lookupKV k l).isSome
  | [], h => by simp at h
  | (k', v') :: rest, h => by
    by_cases hk : k' = k
    · simp [lookupKV, hk]
    · simp only [List.map_cons, List.mem_cons] at h
      rcases h with h | h
      · exact absurd h.symm hk
      · simpa [lookupKV, hk] using lookupKV_isSome_of_mem_keys h

theorem mem_keys_upsertKV {κ β : Type} [DecidableEq κ] {x k : κ} (v : β) :
    ∀ {l : List (κ × β)}, x ∈ (upsertKV k v l).map (·.1) → x = k ∨ x ∈ l.map (·.1)
  | [], h => by
    simp only [upsertKV, List.map_cons, List.map_nil, List.mem_singleton] at h
    exact Or.inl h
  | (k', v') :: rest, h => by
    by_cases hk : k' = k
    · simp only [upsertKV, if_pos hk, List.map_cons, List.mem_cons] at h
      rcases h with h | h
      · exact Or.inl (h.trans hk)
      · exact Or.inr (by simp [h])
    · simp only [upsertKV, if_neg hk, List.map_cons, List.mem_cons] at h
      rcases h with h | h
      · exact Or.inr (by simp [h])
      · rcases mem_keys_upsertKV v h with h | h
        · exact Or.inl h
        · exact Or.inr (by simp [h])

theorem mem_keys_buildRecordMap_aux (i : Nat) :
    ∀ (recs : List SyncRecord) (m0 : List (Nat × SyncRecord)),
      i ∈ ((recs.foldl
          (fun m r =>
            match r.message_id with
            | some j => upsertKV j r m
            | none => m) m0).map (·.1)) →
      i ∈ m0.map (·.1) ∨ ∃ r ∈ recs, r.message_id = some i
  | [], m0, h => Or.inl h
  | r :: rest, m0, h => by
    rcases mem_keys_buildRecordMap_aux i rest _ h with h' | ⟨r', hr', hid⟩
    · cases hrid : r.message_id with
      | none =>
          rw [List.foldl_cons] at h
          simp only [hrid] at h'
          exact Or.inl h'
      | some j =>
          simp only [hrid] at h'
          rcases mem_keys_upsertKV r h' with rfl | h''
          · exact Or.inr ⟨r, List.mem_cons_self r rest, hrid⟩
          · exact Or.inl h''
    · exact Or.inr ⟨r', List.mem_cons_of_mem r hr', hid⟩

theorem mem_keys_buildRecordMap {recs : List SyncRecord} {i : Nat}
    (h : i ∈ (buildRecordMap recs).map (·.1)) :
    ∃ r ∈ recs, r.message_id = some i := by
  rcases mem_keys_buildRecordMap_aux i recs [] h with h' | h'
  · simp at h'
  · exact h'

theorem processMsgId_messages_lookup_self
    (lm rm : List (Nat × SyncRecord)) (i : Nat) (db : SyncDb) :
    lookupKV i ((processMsgId lm rm i db).messages) =
      if (syncedMessageFor lm rm i).isSome then syncedMessageFor lm rm i
      else lookupKV i db.messages := by
  rcases hl : lookupKV i lm with _ | l <;> rcases hr : lookupKV i rm with _ | r <;>
    simp [processMsgId, syncedMessageFor, addMessageSynced, setMessageStatusSync,
      hl, hr, lookupKV_upsertKV_self]

theorem processMsgId_messages_lookup_ne
    (lm rm : List (Nat × SyncRecord)) {i j : Nat} (db : SyncDb) (hne : j ≠ i) :
    lookupKV i ((processMsgId lm rm j db).messages) = lookupKV i db.messages := by
  rcases hl : lookupKV j lm with _ | l <;> rcases hr : lookupKV j rm with _ | r <;>
    simp [processMsgId, addMessageSynced, setMessageStatusSync, hl, hr,
      lookupKV_upsertKV_ne _ _ hne]

theorem syncFold_messages_lookup (lm rm : List (Nat × SyncRecord)) (i : Nat) :
    ∀ (ids : List Nat) (db : SyncDb),
      lookupKV i ((ids.foldl (fun d j => processMsgId lm rm j d) db).messages) =
        if i ∈ ids ∧ (syncedMessageFor lm rm i).isSome
        then syncedMessageFor lm rm i
        else lookupKV i db.messages
  | [], db => by simp
  | j :: rest, db => by
    rw [List.foldl_cons,
      syncFold_messages_lookup lm rm i rest (processMsgId lm rm j db)]
    by_cases hi : i ∈ rest
    · by_cases hSome : (syncedMessageFor lm rm i).isSome
      · rw [if_pos ⟨hi, hSome⟩, if_pos ⟨List.mem_cons_of_mem j hi, hSome⟩]
      · rw [if_neg (fun hc => hSome hc.2), if_neg (fun hc => hSome hc.2)]
        by_cases hj : j = i
        · subst hj
          rw [processMsgId_messages_lookup_self lm rm j db, if_neg hSome]
        · exact processMsgId_messages_lookup_ne lm rm db hj
    · by_cases hj : j = i
      · subst hj
        rw [if_neg (fun hc => hi hc.1),
          processMsgId_messages_lookup_self lm rm j db]
        by_cases hSome : (syncedMessageFor lm rm j).isSome
        · rw [if_pos hSome, if_pos ⟨List.mem_cons_self j rest, hSome⟩]
        · rw [if_neg hSome, if_neg (fun hc => hSome hc.2)]
      · have hij : i ∉ j :: rest := by
          intro hc
          rcases List.mem_cons.mp hc with h | h
          · exact hj h.symm
          · exact hi h
        rw [if_neg (fun hc => hi hc.1), processMsgId_messages_lookup_ne lm rm db hj,
          if_neg (fun hc => hij hc.1)]

theorem markStaleMissing_messages (seen : List Nat) :
    ∀ (existing : List (Nat × SyncedMessage)) (db : SyncDb),
      (markStaleMissing existing seen db).messages = db.messages
  | [], _ => rfl
  | row :: rest, db => by
    rw [markStaleMissing, markStaleMissing_messages seen rest]
    by_cases h : row.1 ∈ seen
    · rw [if_pos h]
    · rw [if_neg h]
      rfl

theorem markStaleMissing_status_lookup (seen : List Nat) (i : Nat) :
    ∀ (existing : List (Nat × SyncedMessage)) (db : SyncDb),
      lookupKV i (markStaleMissing existing seen db).message_status =
        if i ∈ existing.map (·.1) ∧ i ∉ seen
        then some ⟨"missing", none⟩
        else lookupKV i db.message_status
  | [], db => by simp [markStaleMissing]
  | row :: rest, db => by
    rw [markStaleMissing, markStaleMissing_status_lookup seen i rest]
    by_cases hrest : i ∈ rest.map (·.1) ∧ i ∉ seen
    · rw [if_pos hrest,
        if_pos ⟨by simpa using Or.inr hrest.1, hrest.2⟩]
    · rw [if_neg hrest]
      by_cases hrow : row.1 = i
      · by_cases hseen : i ∈ seen
        · have hko : ¬(i ∈ (row :: rest).map (·.1) ∧ i ∉ seen) :=
            fun hc => hc.2 hseen
          rw [if_neg hko, if_pos (hrow ▸ hseen)]
        · have hk : i ∈ (row :: rest).map (·.1) ∧ i ∉ seen :=
            ⟨by simp [hrow], hseen⟩
          rw [if_pos hk, if_neg (fun hc => hseen (hrow ▸ hc))]
          show lookupKV i (upsertKV row.1 ⟨"missing", none⟩ db.message_status)
            = some ⟨"missing", none⟩
          subst hrow
          exact lookupKV_upsertKV_self _ _ _
      · have hko : ¬(i ∈ (row :: rest).map (·.1) ∧ i ∉ seen) := by
          intro hc
          have h1 : i ∈ row.1 :: rest.map (·.1) := by
            simpa only [List.map_cons] using hc.1
          rcases List.mem_cons.mp h1 with h | h
          · exact hrow h.symm
          · exact hrest ⟨h, hc.2⟩
        rw [if_neg hko]
        by_cases hseen : row.1 ∈ seen
        · rw [if_pos hseen]
        · rw [if_neg hseen]
          show lookupKV i (upsertKV row.1 ⟨"missing", none⟩ db.message_status)
            = lookupKV i db.message_status
          exact lookupKV_upsertKV_ne _ _ hrow

/-- C8: reconciliation assigns each resolved id the storage state given by
its presence in the current listings — local only → `"local"`, remote only
→ `"remote"`, both → `"both"` — and every previously recorded id seen in
neither listing has its status set to `"missing"` while its message row is
retained unchanged. -/
theorem c8_reconciliation_states
    (localRecs remoteRecs : List SyncRecord) (db : SyncDb) (i : Nat) :
    ((lookupKV i (buildRecordMap localRecs)).isSome →
      (lookupKV i (buildRecordMap remoteRecs)).isNone →
      (lookupKV i (reconcileChat localRecs remoteRecs db).messages).map
        (·.storage_status) = some "local") ∧
    ((lookupKV i (buildRecordMap localRecs)).isNone →
      (lookupKV i (buildRecordMap remoteRecs)).isSome →
      (lookupKV i (reconcileChat localRecs remoteRecs db).messages).map
        (·.storage_status) = some "remote") ∧
    ((lookupKV i (buildRecordMap localRecs)).isSome →
      (lookupKV i (buildRecordMap remoteRecs)).isSome →
      (lookupKV i (reconcileChat localRecs remoteRecs db).messages).map
        (·.storage_status) = some "both") ∧
    ((lookupKV i db.messages).isSome →
      i ∉ (localRecs ++ remoteRecs).filterMap (·.message_id) →
      (lookupKV i (reconcileChat localRecs remoteRecs db).message_status).map
          (·.status) = some "missing" ∧
      lookupKV i (reconcileChat localRecs remoteRecs db).messages
        = lookupKV i db.messages) := by
  have hrc : reconcileChat localRecs remoteRecs db
      = markStaleMissing db.messages
          ((localRecs ++ remoteRecs).filterMap (·.message_id))
          (syncChatState localRecs remoteRecs db) := rfl
  have hscs : syncChatState localRecs remoteRecs db
      = (((buildRecordMap localRecs).map (·.1)
            ++ (buildRecordMap remoteRecs).map (·.1)).dedup).foldl
          (fun d j => processMsgId (buildRecordMap localRecs)
            (buildRecordMap remoteRecs) j d) db := rfl
  have hmsg : ∀ j : Nat,
      lookupKV j (reconcileChat localRecs remoteRecs db).messages =
        if j ∈ ((buildRecordMap localRecs).map (·.1)
              ++ (buildRecordMap remoteRecs).map (·.1)).dedup ∧
            (syncedMessageFor (buildRecordMap localRecs)
              (buildRecordMap remoteRecs) j).isSome
        then syncedMessageFor (buildRecordMap localRecs) (buildRecordMap remoteRecs) j
        else lookupKV j db.messages := by
    intro j
    rw [hrc, markStaleMissing_messages, hscs]
    exact syncFold_messages_lookup _ _ j _ db
  refine ⟨?_, ?_, ?_, ?_⟩
  · intro hl hr
    rcases Option.isSome_iff_exists.mp hl with ⟨l, hl'⟩
    have hr' : lookupKV i (buildRecordMap remoteRecs) = none :=
      Option.isNone_iff_eq_none.mp hr
    have hmem : i ∈ ((buildRecordMap localRecs).map (·.1)
        ++ (buildRecordMap remoteRecs).map (·.1)).dedup :=
      List.mem_dedup.mpr (List.mem_append_left _ (mem_keys_of_lookupKV_isSome hl))
    rw [hmsg i, if_pos ⟨hmem, by simp [syncedMessageFor, hl', hr']⟩]
    simp [syncedMessageFor, hl', hr']
  · intro hl hr
    rcases Option.isSome_iff_exists.mp hr with ⟨r, hr'⟩
    have hl' : lookupKV i (buildRecordMap localRecs) = none :=
      Option.isNone_iff_eq_none.mp hl
    have hmem : i ∈ ((buildRecordMap localRecs).map (·.1)
        ++ (buildRecordMap remoteRecs).map (·.1)).dedup :=
      List.mem_dedup.mpr (List.mem_append_right _ (mem_keys_of_lookupKV_isSome hr))
    rw [hmsg i, if_pos ⟨hmem, by simp [syncedMessageFor, hl', hr']⟩]
    simp [syncedMessageFor, hl', hr']
  · intro hl hr
    rcases Option.isSome_iff_exists.mp hl with ⟨l, hl'⟩
    rcases Option.isSome_iff_exists.mp hr with ⟨r, hr'⟩
    have hmem : i ∈ ((buildRecordMap localRecs).map (·.1)
        ++ (buildRecordMap remoteRecs).map (·.1)).dedup :=
      List.mem_dedup.mpr (List.mem_append_left _ (mem_keys_of_lookupKV_isSome hl))
    rw [hmsg i, if_pos ⟨hmem, by simp [syncedMessageFor, hl', hr']⟩]
    simp [syncedMessageFor, hl', hr']
  · intro hrow hseen
    have hnotids : i ∉ ((buildRecordMap localRecs).map (·.1)
        ++ (buildRecordMap remoteRecs).map (·.1)).dedup := by
      intro hmem
      rcases List.mem_append.mp (List.mem_dedup.mp hmem) with h | h
      · rcases mem_keys_buildRecordMap h with ⟨r, hr, hid⟩
        exact hseen (List.mem_filterMap.mpr ⟨r, List.mem_append_left _ hr, hid⟩)
      · rcases mem_keys_buildRecordMap h with ⟨r, hr, hid⟩
        exact hseen (List.mem_filterMap.mpr ⟨r, List.mem_append_right _ hr, hid⟩)
    constructor
    · rw [hrc]
      rw [markStaleMissing_status_lookup]
      rw [if_pos ⟨mem_keys_of_lookupKV_isSome hrow, hseen⟩]
      rfl
    · rw [hmsg i, if_neg (fun hc => hnotids hc.1)]

/-- C8 witness: a concrete round with one local-only record and one stale
recorded row. -/
theorem c8_reconciliation_states_witness :
    (lookupKV 1 (reconcileChat
        [⟨some 1, "1.bin", some "/c/1.bin", 5, none, some "/c/1.bin", none, none⟩]
        [] ⟨[(9, ⟨"9.bin", some "/c/9.bin", 7, none, some "/c/9.bin", none, none,
          "local"⟩)], []⟩).messages).map (·.storage_status) = some "local" :=
  (c8_reconciliation_states
    [⟨some 1, "1.bin", some "/c/1.bin", 5, none, some "/c/1.bin", none, none⟩]
    [] ⟨[(9, ⟨"9.bin", some "/c/9.bin", 7, none, some "/c/9.bin", none, none,
      "local"⟩)], []⟩ 1).1 (by decide) (by decide)

end TelegramBackup
